import Mathlib

/-!
Verification of the LLM-prompt-builder service (`src/app.py`).

Python strings are modelled as `List Char` (the program only manipulates
character sequences; ASCII suffices for every literal the code contains).
Each Python helper of `app.py` is embedded as a computable Lean function
of the same name; the regular expressions `SQL_START_RE` and
`HAS_DRAFT_RE` are embedded by the scanning functions `_looks_like_sql`
and `_has_draft`, which realize exactly the two patterns
(anchored `^\s*SELECT\b` under `re.search`, resp. unanchored
`\bdraft\s*=\s*`), both case-insensitive.
-/

abbrev Str := List Char

/-- Coerce a Lean string literal to the `List Char` model. -/
def strL (s : String) : Str := s.data

/-- Python whitespace (`\s` of `re`, and the default `str.strip` set),
restricted to ASCII. -/
def isPySpace (c : Char) : Bool :=
  c = ' ' || c = '\t' || c = '\n' || c = '\r' || c = '\x0b' || c = '\x0c'

/-- Python regex word character (`\w` / the `\b` boundary class), ASCII. -/
def isWordChar (c : Char) : Bool := c.isAlphanum || c = '_'

/-- `isStartOf pat s`: `s` begins with `pat` (Python `str.startswith`). -/
def isStartOf : Str → Str → Bool
  | [], _ => true
  | _ :: _, [] => false
  | p :: ps, c :: cs => (p = c) && isStartOf ps cs

/-- Case-insensitive variant: `pat` is given lower-case. -/
def isStartOfCI : Str → Str → Bool
  | [], _ => true
  | _ :: _, [] => false
  | p :: ps, c :: cs => (p = c.toLower) && isStartOfCI ps cs

/-- Python `str.strip()`: drop whitespace from both ends. -/
def pyStrip (s : Str) : Str :=
  ((s.dropWhile isPySpace).reverse.dropWhile isPySpace).reverse

/-- Python `str.upper()` (ASCII). -/
def pyUpper (s : Str) : Str := s.map Char.toUpper

/-- Python `s.replace("\\r\\n", "\n")`: left-to-right, non-overlapping
replacement of the four-character escape text `\r\n` by a newline. -/
def replCRLF : Str → Str
  | '\\' :: 'r' :: '\\' :: 'n' :: rest => '\n' :: replCRLF rest
  | c :: rest => c :: replCRLF rest
  | [] => []

/-- Python `sep.join(parts)`. -/
def joinSep (sep : Str) : List Str → Str
  | [] => []
  | [x] => x
  | x :: y :: rest => x ++ sep ++ joinSep sep (y :: rest)

/-- Python `s.count(pat)` for non-empty `pat`: the number of
non-overlapping occurrences, scanning left to right.  `skip` is the
number of characters still owned by the previous match. -/
def countSkip (pat : Str) : Str → Nat → Nat
  | [], _ => 0
  | _ :: rest, k + 1 => countSkip pat rest k
  | c :: rest, 0 =>
    if !pat.isEmpty && isStartOf pat (c :: rest) then
      1 + countSkip pat rest (pat.length - 1)
    else
      countSkip pat rest 0

/-- Python `s.count(pat)` (as used in `build_assessment`). -/
def pyCount (s pat : Str) : Nat := countSkip pat s 0

/-- `app.py` line 54, `_normalize_text`: resolve the escaped CRLF pair,
keep line breaks, trim outer whitespace; empty/missing input gives "". -/
def _normalize_text (s : Str) : Str :=
  if s.isEmpty then [] else pyStrip (replCRLF s)

/-- `app.py` line 60, `_looks_like_sql`: `re.search` of the anchored
pattern `^\s*SELECT\b` (IGNORECASE; DOTALL is irrelevant, the pattern
has no dot): skip leading whitespace, then the case-insensitive word
`SELECT` followed by a non-word character or the end of the string. -/
def _looks_like_sql (s : Str) : Bool :=
  let t := s.dropWhile isPySpace
  isStartOfCI (strL "select") t &&
    (match t.drop 6 with
     | [] => true
     | c :: _ => !(isWordChar c))

/-- One position of `HAS_DRAFT_RE` (`\bdraft\s*=\s*`) after the word
boundary: the case-insensitive word `draft`, optional whitespace, `=`
(the trailing `\s*` always matches). -/
def draftHere (s : Str) : Bool :=
  isStartOfCI (strL "draft") s &&
    (match (s.drop 5).dropWhile isPySpace with
     | '=' :: _ => true
     | _ => false)

/-- Scan for `HAS_DRAFT_RE`; `prevWord` tracks whether the previous
character was a word character (for the `\b` assertion). -/
def _has_draft_go : Bool → Str → Bool
  | _, [] => false
  | prevWord, c :: rest =>
    (!prevWord && draftHere (c :: rest)) || _has_draft_go (isWordChar c) rest

/-- `app.py` line 63, `_has_draft`: `re.search` of `\bdraft\s*=\s*`. -/
def _has_draft (s : Str) : Bool := _has_draft_go false s

/-- A finding as received by the core (the transport/validation layer,
out of scope here, has already applied the pydantic defaults). -/
structure FindingIn where
  pgm_name : Str := []
  inc_name : Str := []
  type : Str := []
  name : Str := []
  class_implementation : Str := []
  issue_type : Str := []
  severity : Str := []
  message : Str := []
  suggestion : Str := []
  snippet : Str := []
deriving DecidableEq

/-- A unit as received by the core (defaults already applied). -/
structure UnitIn where
  pgm_name : Str
  inc_name : Str
  type : Str
  name : Str := []
  class_implementation : Str := []
  start_line : Int := 0
  end_line : Int := 0
  findings : List FindingIn := []
deriving DecidableEq

/-- One element of the response array. -/
structure UnitOut where
  pgm_name : Str
  inc_name : Str
  type : Str
  name : Str
  class_implementation : Str
  start_line : Int
  end_line : Int
  assessment : Str
  llm_prompt : Str
deriving DecidableEq

/-- Python `x or y` on strings: `y` if `x` is empty, else `x`. -/
def pyOrStr (x y : Str) : Str := if x.isEmpty then y else x

/-- Python `n or 0` on ints: `0` if `n == 0`, else `n`. -/
def pyOrInt (n : Int) : Int := if n = 0 then 0 else n

/-- Python `xs or []` on lists. -/
def pyOrList (xs : List FindingIn) : List FindingIn :=
  if xs.isEmpty then [] else xs

/-- `app.py` line 66, `choose_best_sql`: the ordered selection policy
over the two normalized candidate texts. -/
def choose_best_sql (f : FindingIn) : Option Str :=
  let suggestion := _normalize_text f.suggestion
  let snippet := _normalize_text f.snippet
  let sugg_is_sql := _looks_like_sql suggestion
  let snip_is_sql := _looks_like_sql snippet
  if sugg_is_sql then some suggestion
  else if _has_draft suggestion && !_has_draft snippet && !suggestion.isEmpty then
    some suggestion
  else if snip_is_sql then some snippet
  else if !suggestion.isEmpty then some suggestion
  else if !snippet.isEmpty then some snippet
  else none

/-- Decimal rendering of a count (Python f-string interpolation). -/
def natStr (n : Nat) : Str := (toString n).data

/-- The blob of `app.py` line 91: raw `snippet`, a space, raw
`suggestion`, per finding, joined by single spaces, upper-cased. -/
def assessBlob (findings : List FindingIn) : Str :=
  pyUpper (joinSep (strL " ")
    (findings.map fun f => f.snippet ++ strL " " ++ f.suggestion))

/-- The `joins` component of `app.py` line 92. -/
def assessJoins (findings : List FindingIn) : Nat :=
  pyCount (assessBlob findings) (strL " JOIN ")

/-- The `with_fae` component of `app.py` line 93. -/
def assessFAE (findings : List FindingIn) : Nat :=
  pyCount (assessBlob findings) (strL "FOR ALL ENTRIES")

/-- The `with_draft` component of `app.py` line 94: per-finding boolean
over the two raw fields. -/
def assessDraftCount (findings : List FindingIn) : Nat :=
  (findings.filter fun f => _has_draft f.snippet || _has_draft f.suggestion).length

/-- `app.py` line 89, `build_assessment`: the fixed-template sentence. -/
def build_assessment (findings : List FindingIn) : Str :=
  let total := findings.length
  let blob := pyUpper (joinSep (strL " ")
    (findings.map fun f => f.snippet ++ strL " " ++ f.suggestion))
  let joins := pyCount blob (strL " JOIN ")
  let with_fae := pyCount blob (strL "FOR ALL ENTRIES")
  let with_draft :=
    (findings.filter fun f => _has_draft f.snippet || _has_draft f.suggestion).length
  strL "Found " ++ natStr total ++ strL " finding(s) (joins: " ++ natStr joins ++
    strL ", FAE: " ++ natStr with_fae ++ strL "). " ++ natStr with_draft ++
    strL " statement(s) include draft filtering. The prompt embeds clear remediation instructions followed by canonical SQL snippets (preferring ones with DRAFT filters)."

/-- `app.py` line 101, `default_policy_bullets`: the fixed instruction
list; the date string is its explicit parameter. -/
def default_policy_bullets (today_str : Str) : List Str :=
  [ strL "Remediate the ABAP code EXACTLY following these bullets.",
    strL "Apply conditional rules (e.g., draft/active predicates) ONLY when the relevant columns exist in the referenced tables/views.",
    strL "For SELECTs reading VBRP/VBRK in this customer landscape, append \x27AND b~draft = space\x27 and \x27AND c~draft = space\x27 (or matching aliases) when those columns exist.",
    strL "Avoid SELECT *; use explicit field lists. Keep S/4HANA Open SQL syntax (comma-separated field lists, @ host-variable escapes).",
    strL "Do NOT add ORDER BY to SELECT SINGLE. For top-1 by criterion, use \x27ORDER BY … UP TO 1 ROWS\x27.",
    strL "When FOR ALL ENTRIES is used, guard with \x27IF it[] IS NOT INITIAL.\x27 and deduplicate keys before FAE.",
    strL "Keep behavior the same unless bullets say otherwise. Do not suppress warnings or add pseudo-comments.",
    strL "Every ADDED or MODIFIED line must end with an inline ABAP comment: \" Added By Pwc" ++ today_str,
    strL "Return ONLY strict JSON with key \x7b \"remediated_code\": \"<full updated ABAP code with PwC comments on added/modified lines>\" \x7d." ]

/-- `app.py` line 114, `build_request_text`: context block, directive,
dashed bullet list, closing sentence. -/
def build_request_text (unit : UnitIn) (bullets : List Str) : Str :=
  let ctx :=
    strL "Context:\n- Program: " ++ unit.pgm_name ++
    strL "\n- Include: " ++ unit.inc_name ++
    strL "\n- Unit type: " ++ unit.type ++
    strL "\n- Unit name: " ++ pyOrStr unit.name [] ++ strL "\n"
  let bullets_text := joinSep (strL "\n") (bullets.map fun b => strL "- " ++ b)
  strL "Remediate the ABAP code shown below.\n\n" ++ ctx ++ strL "\n" ++
    strL "Rules you MUST follow:\n" ++ bullets_text ++ strL "\n\n" ++
    strL "Use the SQL snippets below as the canonical SELECT sources where applicable."

/-- Dedup key of `app.py` line 143: `sql.strip().upper()`. -/
def dedupKey (s : Str) : Str := pyUpper (pyStrip s)

/-- The selection/dedup loop of `app.py` lines 137-147: per finding,
take `choose_best_sql`, skip falsy results, skip seen keys. -/
def pickLoop (seen : List Str) : List FindingIn → List Str
  | [] => []
  | f :: fs =>
    match choose_best_sql f with
    | none => pickLoop seen fs
    | some sql =>
      if sql.isEmpty then pickLoop seen fs
      else if dedupKey sql ∈ seen then pickLoop seen fs
      else sql :: pickLoop (dedupKey sql :: seen) fs

/-- The same dedup loop as a standalone pass over an already-selected
candidate sequence (the Deduplicator of the spec). -/
def dedupGo (seen : List Str) : List Str → List Str
  | [] => []
  | x :: xs =>
    if dedupKey x ∈ seen then dedupGo seen xs
    else x :: dedupGo (dedupKey x :: seen) xs

/-- Deduplication of a candidate sequence, first occurrence per key. -/
def dedupCandidates (l : List Str) : List Str := dedupGo [] l

/-- One fenced code block of `app.py` line 154. -/
def fenceAbap (sql : Str) : Str := strL "```abap\n" ++ sql ++ strL "\n```"

/-- `app.py` line 131, `compose_llm_prompt`.  The Python body reads the
clock (`date.today()`); the embedding makes that implicit input the
explicit `today` parameter (the value `strftime` returns at line 132). -/
def compose_llm_prompt (today : Str) (unit : UnitIn) (findings : List FindingIn) : Str :=
  let bullets := default_policy_bullets today
  let request_text := build_request_text unit bullets
  let chosen_snippets := pickLoop [] findings
  let snippets_block : Str :=
    if !chosen_snippets.isEmpty then
      strL "\n\nSQL snippets to apply (prefer those with DRAFT filters):\n\n" ++
        joinSep (strL "\n\n") (chosen_snippets.map fenceAbap) ++ strL "\n"
    else []
  request_text ++
    (if !snippets_block.isEmpty then strL "\n\n" ++ snippets_block else strL "\n")

/-- `app.py` line 162, `build_llm_prompt`: map each unit to its result
row (identity fields echoed, assessment and prompt added).  `today` is
the clock value read inside `compose_llm_prompt`. -/
def build_llm_prompt (today : Str) (units : List UnitIn) : List UnitOut :=
  units.map fun unit =>
    { pgm_name := unit.pgm_name
      inc_name := unit.inc_name
      type := unit.type
      name := pyOrStr unit.name []
      class_implementation := pyOrStr unit.class_implementation []
      start_line := pyOrInt unit.start_line
      end_line := pyOrInt unit.end_line
      assessment := build_assessment (pyOrList unit.findings)
      llm_prompt := compose_llm_prompt today unit (pyOrList unit.findings) }

/-- Spec-side Deduplicator (from the words of C4): keep the first
occurrence of each key, in original order. -/
def firstOcc : List Str → List Str
  | [] => []
  | x :: xs => x :: firstOcc (xs.filter fun y => dedupKey y ≠ dedupKey x)
termination_by l => l.length
decreasing_by
  simp only [List.length_cons]
  exact Nat.lt_succ_of_le (List.length_filter_le _ _)

/-- Claim-side join count (from the words of C5): occurrences of
" JOIN " in the uppercased concatenation of each finding's normalized
`suggestion` and `snippet`, accumulated across findings. -/
def claimJoins (findings : List FindingIn) : Nat :=
  (findings.map fun f =>
    pyCount (pyUpper (_normalize_text f.suggestion ++ _normalize_text f.snippet))
      (strL " JOIN ")).sum

/-- Claim-side FOR ALL ENTRIES count (from the words of C5). -/
def claimFAE (findings : List FindingIn) : Nat :=
  (findings.map fun f =>
    pyCount (pyUpper (_normalize_text f.suggestion ++ _normalize_text f.snippet))
      (strL "FOR ALL ENTRIES")).sum

/-! Helper lemmas about the string primitives. -/

theorem dropWhile_head_not (p : Char → Bool) (l : Str) (c : Char)
    (h : (l.dropWhile p).head? = some c) : p c = false := by
  induction l with
  | nil => simp [List.dropWhile] at h
  | cons a t ih =>
    rw [List.dropWhile_cons] at h
    by_cases hp : p a
    · rw [if_pos hp] at h; exact ih h
    · rw [if_neg hp] at h
      simp only [List.head?_cons, Option.some.injEq] at h
      rw [← h]
      exact Bool.eq_false_iff.mpr hp

theorem dropWhile_ne_nil_getLast? (p : Char → Bool) (l : Str)
    (h : l.dropWhile p ≠ []) : (l.dropWhile p).getLast? = l.getLast? := by
  induction l with
  | nil => simp at h
  | cons a t ih =>
    rw [List.dropWhile_cons] at h ⊢
    by_cases hp : p a
    · rw [if_pos hp] at h ⊢
      rw [ih h]
      cases t with
      | nil => simp [List.dropWhile] at h
      | cons b u => rw [List.getLast?_cons_cons]
    · rw [if_neg hp]

theorem pyStrip_head_not (s : Str) (c : Char)
    (h : (pyStrip s).head? = some c) : isPySpace c = false := by
  unfold pyStrip at h
  rw [List.head?_reverse] at h
  have hne : (s.dropWhile isPySpace).reverse.dropWhile isPySpace ≠ [] := by
    intro h0
    rw [h0] at h
    simp at h
  rw [dropWhile_ne_nil_getLast? _ _ hne, List.getLast?_reverse] at h
  exact dropWhile_head_not _ _ _ h

theorem pyStrip_getLast_not (s : Str) (c : Char)
    (h : (pyStrip s).getLast? = some c) : isPySpace c = false := by
  unfold pyStrip at h
  rw [List.getLast?_reverse] at h
  exact dropWhile_head_not _ _ _ h

theorem pyStrip_eq_self (t : Str)
    (h1 : ∀ c, t.head? = some c → isPySpace c = false)
    (h2 : ∀ c, t.getLast? = some c → isPySpace c = false) :
    pyStrip t = t := by
  have hd : t.dropWhile isPySpace = t := by
    cases t with
    | nil => rfl
    | cons a u =>
      rw [List.dropWhile_cons, if_neg]
      simp [h1 a rfl]
  have hr : t.reverse.dropWhile isPySpace = t.reverse := by
    cases ht : t.reverse with
    | nil => rfl
    | cons a u =>
      rw [List.dropWhile_cons, if_neg]
      have ha : t.getLast? = some a := by
        rw [List.getLast?_eq_head?_reverse, ht]
        rfl
      simp [h2 a ha]
  unfold pyStrip
  rw [hd, hr, List.reverse_reverse]

theorem pyStrip_idem (s : Str) : pyStrip (pyStrip s) = pyStrip s :=
  pyStrip_eq_self _ (pyStrip_head_not s) (pyStrip_getLast_not s)

theorem _normalize_text_stripped (s : Str) :
    pyStrip (_normalize_text s) = _normalize_text s := by
  unfold _normalize_text
  by_cases h : s.isEmpty
  · rw [if_pos h]
    rfl
  · rw [if_neg h]
    exact pyStrip_idem _

theorem replCRLF_cons (c : Char) (rest : Str) (hc : c ≠ '\\') :
    replCRLF (c :: rest) = c :: replCRLF rest := by
  conv_lhs => rw [replCRLF.eq_def]
  split
  · next h => injection h with h1 _; exact absurd h1 hc
  · next h heq => injection heq with h1 h2; rw [h1, h2]
  · next heq => exact absurd heq (List.cons_ne_nil c rest)

theorem replCRLF_resolve (a b : Str) (ha : '\\' ∉ a) :
    replCRLF (a ++ '\\' :: 'r' :: '\\' :: 'n' :: b) = a ++ '\n' :: replCRLF b := by
  induction a with
  | nil => rfl
  | cons c a' ih =>
    have hc : c ≠ '\\' := fun h => ha (h ▸ List.mem_cons_self c a')
    rw [List.cons_append, replCRLF_cons c _ hc,
      ih fun h => ha (List.mem_cons_of_mem _ h), List.cons_append]

/-- C1: for every finding whose normalized suggestion begins, after any
leading whitespace (line breaks included), with the case-insensitive
token SELECT, `choose_best_sql` returns that normalized suggestion,
whatever the snippet holds (selection rule 1). -/
theorem C1_select_suggestion_wins (f : FindingIn)
    (h : _looks_like_sql (_normalize_text f.suggestion) = true) :
    choose_best_sql f = some (_normalize_text f.suggestion) := by
  unfold choose_best_sql
  simp only [h, if_true]

theorem C1_witness :
    _looks_like_sql (_normalize_text (strL "  select *\n from vbrk")) = true ∧
    choose_best_sql
      { suggestion := strL "  select *\n from vbrk",
        snippet := strL "anything else at all" } =
      some (_normalize_text (strL "  select *\n from vbrk")) :=
  ⟨by decide, C1_select_suggestion_wins _ (by decide)⟩

/-- C2: for every finding whose normalized suggestion contains a draft
predicate, whose normalized snippet does not, and whose normalized
suggestion is non-empty, `choose_best_sql` returns the normalized
suggestion even when it does not begin with SELECT (rules 1 and 2
together cover every such finding). -/
theorem C2_draft_suggestion_wins (f : FindingIn)
    (h1 : _has_draft (_normalize_text f.suggestion) = true)
    (h2 : _has_draft (_normalize_text f.snippet) = false)
    (h3 : _normalize_text f.suggestion ≠ []) :
    choose_best_sql f = some (_normalize_text f.suggestion) := by
  unfold choose_best_sql
  by_cases hs : _looks_like_sql (_normalize_text f.suggestion)
  · simp only [hs, if_true]
  · have h3' : (_normalize_text f.suggestion).isEmpty = false := by
      cases hn : _normalize_text f.suggestion with
      | nil => exact absurd hn h3
      | cons a t => rfl
    simp only [Bool.not_eq_true] at hs
    simp [hs, h1, h2, h3']

theorem C2_witness :
    _has_draft (_normalize_text (strL "AND a~draft = space")) = true ∧
    _has_draft (_normalize_text (strL "WHERE vbeln = lv_vbeln")) = false ∧
    _normalize_text (strL "AND a~draft = space") ≠ [] ∧
    choose_best_sql
      { suggestion := strL "AND a~draft = space",
        snippet := strL "WHERE vbeln = lv_vbeln" } =
      some (_normalize_text (strL "AND a~draft = space")) :=
  ⟨by decide, by decide, by decide,
    C2_draft_suggestion_wins _ (by decide) (by decide) (by decide)⟩

/-- C3: when neither rule 1 nor rule 2 applies: a snippet that starts
with the SELECT token is returned; otherwise the non-empty one of
suggestion/snippet is returned, preferring the suggestion; the "no
candidate" marker (`none`) is returned exactly when both normalized
fields are empty. -/
theorem C3_fallback (f : FindingIn)
    (h1 : _looks_like_sql (_normalize_text f.suggestion) = false)
    (h2 : ¬(_has_draft (_normalize_text f.suggestion) = true ∧
            _has_draft (_normalize_text f.snippet) = false ∧
            _normalize_text f.suggestion ≠ [])) :
    (_looks_like_sql (_normalize_text f.snippet) = true →
      choose_best_sql f = some (_normalize_text f.snippet)) ∧
    (_looks_like_sql (_normalize_text f.snippet) = false →
      choose_best_sql f =
        (if _normalize_text f.suggestion ≠ [] then some (_normalize_text f.suggestion)
         else if _normalize_text f.snippet ≠ [] then some (_normalize_text f.snippet)
         else none)) ∧
    (choose_best_sql f = none ↔
      (_normalize_text f.suggestion = [] ∧ _normalize_text f.snippet = [])) := by
  have hB : (_has_draft (_normalize_text f.suggestion) &&
      !_has_draft (_normalize_text f.snippet) &&
      !(_normalize_text f.suggestion).isEmpty) = false := by
    by_contra hB0
    rw [Bool.not_eq_false, Bool.and_eq_true, Bool.and_eq_true] at hB0
    refine h2 ⟨hB0.1.1, ?_, ?_⟩
    · rw [Bool.not_eq_true'] at hB0
      exact hB0.1.2
    · intro hnil
      rw [hnil] at hB0
      simp at hB0
  simp only [choose_best_sql]
  rw [h1, hB]
  simp only [Bool.false_eq_true, if_false]
  refine ⟨fun hsnip => by rw [hsnip]; simp, fun hsnip => ?_, ?_⟩
  · rw [hsnip]
    simp only [if_false, Bool.false_eq_true]
    by_cases hsg : _normalize_text f.suggestion = []
    · rw [hsg]
      by_cases hsn : _normalize_text f.snippet = []
      · rw [hsn]; rfl
      · have : (_normalize_text f.snippet).isEmpty = false := by
          cases hn : _normalize_text f.snippet with
          | nil => exact absurd hn hsn
          | cons a t => rfl
        simp [this, hsn]
    · have : (_normalize_text f.suggestion).isEmpty = false := by
        cases hn : _normalize_text f.suggestion with
        | nil => exact absurd hn hsg
        | cons a t => rfl
      simp [this, hsg]
  · constructor
    · intro hnone
      by_cases hsnip : _looks_like_sql (_normalize_text f.snippet)
      · rw [hsnip] at hnone; simp at hnone
      · simp only [Bool.not_eq_true] at hsnip
        rw [hsnip] at hnone
        simp only [if_false, Bool.false_eq_true] at hnone
        by_cases hsg : (_normalize_text f.suggestion).isEmpty
        · by_cases hsn : (_normalize_text f.snippet).isEmpty
          · exact ⟨List.isEmpty_iff.mp hsg, List.isEmpty_iff.mp hsn⟩
          · rw [Bool.not_eq_true] at hsn
            simp [hsg, hsn] at hnone
        · rw [Bool.not_eq_true] at hsg
          simp [hsg] at hnone
    · intro ⟨hsg, hsn⟩
      have hsnip : _looks_like_sql (_normalize_text f.snippet) = false := by
        rw [hsn]; decide
      rw [hsnip, hsg, hsn]
      rfl

theorem C3_witness :
    _looks_like_sql (_normalize_text (strL "foo")) = false ∧
    ¬(_has_draft (_normalize_text (strL "foo")) = true ∧
      _has_draft (_normalize_text (strL "")) = false ∧
      _normalize_text (strL "foo") ≠ []) ∧
    (_looks_like_sql (_normalize_text (strL "")) = false →
      choose_best_sql { suggestion := strL "foo", snippet := strL "" } =
        (if _normalize_text (strL "foo") ≠ [] then some (_normalize_text (strL "foo"))
         else if _normalize_text (strL "") ≠ [] then some (_normalize_text (strL ""))
         else none)) :=
  ⟨by decide, by decide,
    (C3_fallback { suggestion := strL "foo", snippet := strL "" }
      (by decide) (by decide)).2.1⟩

/-- C7: the Text Normalizer is a total function (the embedding of the
Python body, which contains no failing operation): its output is always
outer-whitespace-trimmed (`pyStrip` leaves it unchanged), and every
escaped CRLF sequence is resolved to a literal line break (the clause of
the claim about an impossible resolution is vacuous in this code: no
operation in `_normalize_text` can fail). -/
theorem C7_normalizer_total (s : Str) :
    pyStrip (_normalize_text s) = _normalize_text s ∧
    (∀ a b : Str, '\\' ∉ a →
      replCRLF (a ++ '\\' :: 'r' :: '\\' :: 'n' :: b) = a ++ '\n' :: replCRLF b) :=
  ⟨_normalize_text_stripped s, replCRLF_resolve⟩

theorem C7_witness :
    pyStrip (_normalize_text (strL " a\\r\\nb ")) = _normalize_text (strL " a\\r\\nb ") ∧
    replCRLF (strL "a " ++ '\\' :: 'r' :: '\\' :: 'n' :: strL " b") =
      strL "a " ++ '\n' :: replCRLF (strL " b") :=
  ⟨(C7_normalizer_total (strL " a\\r\\nb ")).1,
    (C7_normalizer_total (strL " a\\r\\nb ")).2 (strL "a ") (strL " b") (by decide)⟩

theorem mem_of_mem_firstOcc (y : Str) : ∀ l : List Str, y ∈ firstOcc l → y ∈ l := by
  intro l
  induction l using firstOcc.induct with
  | case1 => intro h; simp [firstOcc] at h
  | case2 x xs ih =>
    intro h
    rw [firstOcc] at h
    rcases List.mem_cons.mp h with h1 | h2
    · exact h1 ▸ List.mem_cons_self x _
    · exact List.mem_cons_of_mem _ (List.mem_of_mem_filter (ih h2))

theorem firstOcc_idem (l : List Str) : firstOcc (firstOcc l) = firstOcc l := by
  induction l using firstOcc.induct with
  | case1 => simp [firstOcc]
  | case2 x xs ih =>
    rw [firstOcc, firstOcc]
    congr 1
    rw [List.filter_eq_self.mpr, ih]
    intro a ha
    exact (List.mem_filter.mp (mem_of_mem_firstOcc a _ ha)).2

theorem firstOcc_length_le (l : List Str) : (firstOcc l).length ≤ l.length := by
  induction l using firstOcc.induct with
  | case1 => simp [firstOcc]
  | case2 x xs ih =>
    rw [firstOcc]
    simp only [List.length_cons]
    exact Nat.succ_le_succ (le_trans ih (List.length_filter_le _ _))

theorem dedupGo_eq (l : List Str) : ∀ seen : List Str,
    dedupGo seen l = firstOcc (l.filter fun y => dedupKey y ∉ seen) := by
  induction l with
  | nil => intro seen; simp [dedupGo, firstOcc]
  | cons x xs ih =>
    intro seen
    by_cases h : dedupKey x ∈ seen
    · rw [dedupGo, if_pos h, ih seen, List.filter_cons]
      simp [h]
    · rw [dedupGo, if_neg h, ih (dedupKey x :: seen), List.filter_cons]
      simp only [h, not_false_eq_true, decide_eq_true_eq, if_pos]
      rw [firstOcc]
      congr 1
      rw [List.filter_filter]
      congr 1
      apply List.filter_congr
      intro a _
      simp only [List.mem_cons, not_or, decide_not]
      rw [Bool.decide_and]
      simp only [decide_not]

theorem dedup_eq_firstOcc (l : List Str) : dedupCandidates l = firstOcc l := by
  unfold dedupCandidates
  rw [dedupGo_eq]
  congr 1
  apply List.filter_eq_self.mpr
  intro a _
  simp

/-- C4: the dedup loop keyed on `strip().upper()` retains exactly the
first occurrence of each key in original order (it equals the
first-occurrence function `firstOcc`, written from the spec text), it is
idempotent, and its output is never longer than its input. -/
theorem C4_dedup_first_occurrence (l : List Str) :
    dedupCandidates l = firstOcc l ∧
    dedupCandidates (dedupCandidates l) = dedupCandidates l ∧
    (dedupCandidates l).length ≤ l.length := by
  refine ⟨dedup_eq_firstOcc l, ?_, ?_⟩
  · rw [dedup_eq_firstOcc, dedup_eq_firstOcc, firstOcc_idem]
  · rw [dedup_eq_firstOcc]
    exact firstOcc_length_le l

theorem isEmpty_false_of_ne (s : Str) (h : s ≠ []) : s.isEmpty = false := by
  cases s with
  | nil => exact absurd rfl h
  | cons a t => rfl

/-- C5 counterexample: for the single finding with raw `suggestion`
"JOIN B" and raw `snippet` "A", the code builds the blob
"A JOIN B" (raw snippet first, space-separated, space-joined) whose
" JOIN " count is 1 and renders `joins: 1`, while the claim's formula
(uppercased concatenation of the normalized suggestion and snippet,
"JOIN BA") yields 0. -/
theorem C5_counterexample :
    assessJoins [{ suggestion := strL "JOIN B", snippet := strL "A" }] = 1 ∧
    claimJoins [{ suggestion := strL "JOIN B", snippet := strL "A" }] = 0 ∧
    ¬(assessJoins [{ suggestion := strL "JOIN B", snippet := strL "A" }] =
      claimJoins [{ suggestion := strL "JOIN B", snippet := strL "A" }]) := by
  refine ⟨by decide, by decide, by decide⟩

set_option maxRecDepth 4000 in
/-- C5 (amended): the four numeric components embedded in the assessment
sentence are: the finding-list length; the " JOIN " and "FOR ALL
ENTRIES" occurrence counts in the uppercased single-space join, across
findings, of raw `snippet` ++ " " ++ raw `suggestion` (`assessBlob`);
and the per-finding draft-predicate count over the raw fields. -/
theorem C5_assessment_components (findings : List FindingIn) :
    build_assessment findings =
      strL "Found " ++ natStr findings.length ++ strL " finding(s) (joins: " ++
      natStr (assessJoins findings) ++ strL ", FAE: " ++ natStr (assessFAE findings) ++
      strL "). " ++ natStr (assessDraftCount findings) ++
      strL " statement(s) include draft filtering. The prompt embeds clear remediation instructions followed by canonical SQL snippets (preferring ones with DRAFT filters)." :=
  rfl

set_option maxRecDepth 100000 in
/-- C6 counterexample: with unit and findings held fixed, two runs whose
internal `date.today()` reads differ produce different prompts: the
composer is not a pure function of its explicit inputs (unit, findings);
it reads the clock internally. -/
theorem C6_counterexample :
    compose_llm_prompt (strL "2026-10-12")
        { pgm_name := strL "P", inc_name := strL "I", type := strL "F" } [] ≠
      compose_llm_prompt (strL "2026-12-31")
        { pgm_name := strL "P", inc_name := strL "I", type := strL "F" } [] := by
  intro h
  have hc := congrArg (fun s => pyCount s (strL "2026-10-12")) h
  simp only at hc
  have h1 : pyCount (compose_llm_prompt (strL "2026-10-12")
      { pgm_name := strL "P", inc_name := strL "I", type := strL "F" } [])
      (strL "2026-10-12") = 1 := by decide
  have h2 : pyCount (compose_llm_prompt (strL "2026-12-31")
      { pgm_name := strL "P", inc_name := strL "I", type := strL "F" } [])
      (strL "2026-10-12") = 0 := by decide
  rw [h1, h2] at hc
  exact absurd hc (by decide)

/-- C6 (amended): the bullet provider takes the date as an explicit
parameter, and the composer depends on its internal clock read only
through that bullet list: compositions with equal unit, findings and
bullet lists (in particular, equal clock-read dates) are identical. -/
theorem C6_compose_pure_given_date (d1 d2 : Str) (u : UnitIn) (fs : List FindingIn)
    (h : default_policy_bullets d1 = default_policy_bullets d2) :
    compose_llm_prompt d1 u fs = compose_llm_prompt d2 u fs := by
  unfold compose_llm_prompt
  rw [h]

theorem C6_witness :
    compose_llm_prompt (strL "2026-10-12")
        { pgm_name := strL "P", inc_name := strL "I", type := strL "F" } [] =
      compose_llm_prompt (strL "2026-10-12")
        { pgm_name := strL "P", inc_name := strL "I", type := strL "F" } [] :=
  C6_compose_pure_given_date _ _ _ [] rfl

theorem pyOrStr_nil (s : Str) : pyOrStr s [] = s := by
  cases s with
  | nil => rfl
  | cons a t => rfl

theorem pyOrInt_eq (n : Int) : pyOrInt n = n := by
  unfold pyOrInt
  by_cases h : n = 0
  · rw [if_pos h, h]
  · rw [if_neg h]

/-- C9: the response list is index-aligned with the request list (same
length, i-th output from i-th input), and every identity field of an
output row is a verbatim copy of the corresponding input field (the
Python `or` defaults are identities on the already-validated values);
only `assessment` and `llm_prompt` are computed. -/
theorem C9_identity_echo (today : Str) (units : List UnitIn) :
    (build_llm_prompt today units).length = units.length ∧
    ∀ i : Nat,
      ((build_llm_prompt today units)[i]?).map UnitOut.pgm_name =
        (units[i]?).map UnitIn.pgm_name ∧
      ((build_llm_prompt today units)[i]?).map UnitOut.inc_name =
        (units[i]?).map UnitIn.inc_name ∧
      ((build_llm_prompt today units)[i]?).map UnitOut.type =
        (units[i]?).map UnitIn.type ∧
      ((build_llm_prompt today units)[i]?).map UnitOut.name =
        (units[i]?).map UnitIn.name ∧
      ((build_llm_prompt today units)[i]?).map UnitOut.class_implementation =
        (units[i]?).map UnitIn.class_implementation ∧
      ((build_llm_prompt today units)[i]?).map UnitOut.start_line =
        (units[i]?).map UnitIn.start_line ∧
      ((build_llm_prompt today units)[i]?).map UnitOut.end_line =
        (units[i]?).map UnitIn.end_line := by
  constructor
  · simp [build_llm_prompt]
  · intro i
    cases h : units[i]? with
    | none =>
      refine ⟨?_, ?_, ?_, ?_, ?_, ?_, ?_⟩ <;>
        simp [build_llm_prompt, List.getElem?_map, h]
    | some u =>
      refine ⟨?_, ?_, ?_, ?_, ?_, ?_, ?_⟩ <;>
        simp [build_llm_prompt, List.getElem?_map, h, pyOrStr_nil, pyOrInt_eq]

theorem choose_shape (f : FindingIn) :
    choose_best_sql f = none ∨
    ∃ r, choose_best_sql f = some r ∧
      (r = _normalize_text f.suggestion ∨ r = _normalize_text f.snippet) ∧
      r ≠ [] ∧ pyStrip r = r := by
  have hSs : pyStrip (_normalize_text f.suggestion) = _normalize_text f.suggestion :=
    _normalize_text_stripped _
  have hPs : pyStrip (_normalize_text f.snippet) = _normalize_text f.snippet :=
    _normalize_text_stripped _
  have hsql_ne : ∀ t : Str, _looks_like_sql t = true → t ≠ [] := by
    intro t ht hnil
    rw [hnil] at ht
    exact absurd ht (by decide)
  by_cases h1 : _looks_like_sql (_normalize_text f.suggestion)
  · exact Or.inr ⟨_, by simp only [choose_best_sql, h1, if_true], Or.inl rfl,
      hsql_ne _ h1, hSs⟩
  · rw [Bool.not_eq_true] at h1
    by_cases h2 : (_has_draft (_normalize_text f.suggestion) &&
        !_has_draft (_normalize_text f.snippet) &&
        !(_normalize_text f.suggestion).isEmpty) = true
    · refine Or.inr ⟨_, ?_, Or.inl rfl, ?_, hSs⟩
      · simp only [choose_best_sql, h1, h2, Bool.false_eq_true, if_false, if_true]
      · intro hnil
        rw [hnil] at h2
        simp at h2
    · rw [Bool.not_eq_true] at h2
      by_cases h3 : _looks_like_sql (_normalize_text f.snippet)
      · exact Or.inr ⟨_, by simp only [choose_best_sql, h1, h2, h3,
          Bool.false_eq_true, if_false, if_true], Or.inr rfl, hsql_ne _ h3, hPs⟩
      · rw [Bool.not_eq_true] at h3
        by_cases h4 : _normalize_text f.suggestion = []
        · by_cases h5 : _normalize_text f.snippet = []
          · refine Or.inl ?_
            simp only [choose_best_sql, h1, h2, h3, Bool.false_eq_true, if_false]
            rw [h4, h5]
            rfl
          · exact Or.inr ⟨_, by
              simp only [choose_best_sql, h1, h2, h3, Bool.false_eq_true, if_false]
              rw [h4]
              simp [isEmpty_false_of_ne _ h5], Or.inr rfl, h5, hPs⟩
        · exact Or.inr ⟨_, by
            simp only [choose_best_sql, h1, h2, h3, Bool.false_eq_true, if_false]
            simp [isEmpty_false_of_ne _ h4], Or.inl rfl, h4, hSs⟩

theorem pickLoop_mem (c : Str) (fs : List FindingIn) : ∀ seen : List Str,
    c ∈ pickLoop seen fs → ∃ f ∈ fs, choose_best_sql f = some c := by
  induction fs with
  | nil => intro seen h; simp [pickLoop] at h
  | cons f fs ih =>
    intro seen h
    rw [pickLoop] at h
    cases hc : choose_best_sql f with
    | none =>
      rw [hc] at h
      obtain ⟨g, hg1, hg2⟩ := ih seen h
      exact ⟨g, List.mem_cons_of_mem _ hg1, hg2⟩
    | some sql =>
      rw [hc] at h
      simp only at h
      by_cases he : sql.isEmpty
      · rw [if_pos he] at h
        obtain ⟨g, hg1, hg2⟩ := ih seen h
        exact ⟨g, List.mem_cons_of_mem _ hg1, hg2⟩
      · rw [if_neg he] at h
        by_cases hk : dedupKey sql ∈ seen
        · rw [if_pos hk] at h
          obtain ⟨g, hg1, hg2⟩ := ih seen h
          exact ⟨g, List.mem_cons_of_mem _ hg1, hg2⟩
        · rw [if_neg hk] at h
          rcases List.mem_cons.mp h with h1 | h2
          · exact ⟨f, List.mem_cons_self f fs, h1 ▸ hc⟩
          · obtain ⟨g, hg1, hg2⟩ := ih _ h2
            exact ⟨g, List.mem_cons_of_mem _ hg1, hg2⟩

/-- C10: the selector returns either the marker (`none`) or exactly one
of the two normalized fields verbatim, always non-empty and equal to its
own trim; hence every candidate in the deduplicated prompt list is a
non-empty, trim-fixed text selected verbatim from some finding of the
unit. -/
theorem C10_candidates_verbatim :
    (∀ f : FindingIn,
      choose_best_sql f = none ∨
      ∃ r, choose_best_sql f = some r ∧
        (r = _normalize_text f.suggestion ∨ r = _normalize_text f.snippet) ∧
        r ≠ [] ∧ pyStrip r = r) ∧
    (∀ (fs : List FindingIn) (c : Str), c ∈ pickLoop [] fs →
      c ≠ [] ∧ pyStrip c = c ∧ ∃ f ∈ fs, choose_best_sql f = some c) := by
  refine ⟨choose_shape, fun fs c hmem => ?_⟩
  obtain ⟨f, hf, hcf⟩ := pickLoop_mem c fs [] hmem
  rcases choose_shape f with hnone | ⟨r, hr, _, hne, hstr⟩
  · rw [hnone] at hcf; exact absurd hcf (by simp)
  · rw [hr] at hcf
    injection hcf with hrc
    exact ⟨hrc ▸ hne, hrc ▸ hstr, f, hf, hr.trans (by rw [hrc])⟩

theorem C10_witness :
    strL "foo" ≠ [] ∧ pyStrip (strL "foo") = strL "foo" ∧
    ∃ f ∈ [({ suggestion := strL "foo", snippet := strL "" } : FindingIn)],
      choose_best_sql f = some (strL "foo") :=
  C10_candidates_verbatim.2
    [{ suggestion := strL "foo", snippet := strL "" }] (strL "foo") (by decide)

theorem isStartOf_append (p s : Str) : isStartOf p (p ++ s) = true := by
  induction p with
  | nil => rfl
  | cons a ps ih => simp [isStartOf, ih]

theorem isStartOf_cons_ne (p : Char) (ps : Str) (c : Char) (X : Str) (h : p ≠ c) :
    isStartOf (p :: ps) (c :: X) = false := by
  simp [isStartOf, h]

theorem mark_not_start (c : Char) (X : Str) (hc : c ≠ '`') :
    isStartOf (strL "```abap\n") (c :: X) = false := by
  have hm : strL "```abap\n" = '`' :: strL "``abap\n" := rfl
  rw [hm]
  exact isStartOf_cons_ne _ _ _ _ (Ne.symm hc)

theorem countSkip_cons_nomatch (pat : Str) (c : Char) (X : Str)
    (h : isStartOf pat (c :: X) = false) :
    countSkip pat (c :: X) 0 = countSkip pat X 0 := by
  rw [countSkip]
  simp [h]

theorem countSkip_skip (pat s : Str) : ∀ k : Nat,
    countSkip pat s k = countSkip pat (s.drop k) 0 := by
  induction s with
  | nil => intro k; rw [List.drop_nil]; rfl
  | cons c rest ih =>
    intro k
    cases k with
    | zero => rfl
    | succ k' =>
      rw [countSkip, ih k']
      rfl

theorem countSkip_append_notick (a b : Str) (ha : '`' ∉ a) :
    countSkip (strL "```abap\n") (a ++ b) 0 =
      countSkip (strL "```abap\n") b 0 := by
  induction a with
  | nil => rfl
  | cons c a' ih =>
    have hc : c ≠ '`' := fun h => ha (h ▸ List.mem_cons_self c a')
    rw [List.cons_append, countSkip_cons_nomatch _ _ _ (mark_not_start c _ hc)]
    exact ih fun h => ha (List.mem_cons_of_mem _ h)

theorem countSkip_mark_self (X : Str) :
    countSkip (strL "```abap\n") (strL "```abap\n" ++ X) 0 =
      1 + countSkip (strL "```abap\n") X 0 := by
  have h1 : strL "```abap\n" ++ X = '`' :: (strL "``abap\n" ++ X) := rfl
  have hcond : (!(strL "```abap\n").isEmpty &&
      isStartOf (strL "```abap\n") ('`' :: (strL "``abap\n" ++ X))) = true := by
    rw [← h1]
    simp +decide [isStartOf_append]
  rw [h1, countSkip, if_pos hcond]
  have hlen : (strL "```abap\n").length - 1 = 7 := rfl
  rw [hlen, countSkip_skip, List.drop_left' (show (strL "``abap\n").length = 7 from rfl)]

theorem countSkip_close (r : Str) :
    countSkip (strL "```abap\n") (strL "\n```\n" ++ r) 0 =
      countSkip (strL "```abap\n") r 0 := by
  have e : strL "\n```\n" ++ r = '\n' :: '`' :: '`' :: '`' :: '\n' :: r := rfl
  rw [e, countSkip_cons_nomatch _ _ _ (mark_not_start '\n' _ (by decide)),
    countSkip_cons_nomatch _ _ _ ?h1, countSkip_cons_nomatch _ _ _ ?h2,
    countSkip_cons_nomatch _ _ _ ?h3,
    countSkip_cons_nomatch _ _ _ (mark_not_start '\n' _ (by decide))]
  case h1 =>
    have hm : strL "```abap\n" = '`' :: '`' :: '`' :: 'a' :: strL "bap\n" := rfl
    rw [hm]
    simp +decide [isStartOf]
  case h2 =>
    have hm : strL "```abap\n" = '`' :: '`' :: '`' :: 'a' :: strL "bap\n" := rfl
    rw [hm]
    simp +decide [isStartOf]
  case h3 =>
    have hm : strL "```abap\n" = '`' :: '`' :: '`' :: 'a' :: strL "bap\n" := rfl
    rw [hm]
    simp +decide [isStartOf]

theorem countFence : ∀ cands : List Str, (∀ c ∈ cands, '`' ∉ c) →
    countSkip (strL "```abap\n")
      (joinSep (strL "\n\n") (cands.map fenceAbap) ++ strL "\n") 0 =
      cands.length := by
  intro cands
  induction cands with
  | nil => intro _; decide
  | cons c rest ih =>
    intro h
    have hc : '`' ∉ c := h c (List.mem_cons_self c rest)
    have hrest : ∀ x ∈ rest, '`' ∉ x := fun x hx => h x (List.mem_cons_of_mem _ hx)
    cases rest with
    | nil =>
      simp only [List.map_cons, List.map_nil, joinSep]
      have e : fenceAbap c ++ strL "\n" =
          strL "```abap\n" ++ (c ++ (strL "\n```\n" ++ ([] : Str))) := by
        simp only [fenceAbap, List.append_assoc]
        rfl
      rw [e, countSkip_mark_self, countSkip_append_notick _ _ hc, countSkip_close]
      rfl
    | cons c2 rest2 =>
      simp only [List.map_cons, joinSep]
      have e : fenceAbap c ++ strL "\n\n" ++
            joinSep (strL "\n\n") (fenceAbap c2 :: rest2.map fenceAbap) ++ strL "\n" =
          strL "```abap\n" ++ (c ++ (strL "\n```\n" ++ ('\n' ::
            (joinSep (strL "\n\n") (fenceAbap c2 :: rest2.map fenceAbap) ++ strL "\n")))) := by
        simp only [fenceAbap, List.append_assoc]
        rfl
      rw [e, countSkip_mark_self, countSkip_append_notick _ _ hc, countSkip_close,
        countSkip_cons_nomatch _ _ _ (mark_not_start '\n' _ (by decide))]
      have ih2 := ih hrest
      simp only [List.map_cons] at ih2
      rw [ih2]
      simp [Nat.add_comm]

/-- C8: if the deduplicated candidate list is non-empty the composed
prompt appends one individually fenced code block per candidate, in list
order (and, when no text involved carries a backtick, the prompt
contains exactly one fence opener per candidate); if the list is empty,
nothing is appended beyond the request text and a final newline: no
heading and no fences. -/
theorem C8_fenced_blocks (today : Str) (unit : UnitIn) (findings : List FindingIn)
    (hreq : '`' ∉ build_request_text unit (default_policy_bullets today))
    (hc : ∀ c ∈ pickLoop [] findings, '`' ∉ c) :
    (pickLoop [] findings = [] →
      compose_llm_prompt today unit findings =
        build_request_text unit (default_policy_bullets today) ++ strL "\n") ∧
    (pickLoop [] findings ≠ [] →
      compose_llm_prompt today unit findings =
        build_request_text unit (default_policy_bullets today) ++
          (strL "\n\n" ++
            (strL "\n\nSQL snippets to apply (prefer those with DRAFT filters):\n\n" ++
              joinSep (strL "\n\n") ((pickLoop [] findings).map fenceAbap) ++
              strL "\n"))) ∧
    pyCount (compose_llm_prompt today unit findings) (strL "```abap\n") =
      (pickLoop [] findings).length := by
  have hempty : pickLoop [] findings = [] →
      compose_llm_prompt today unit findings =
        build_request_text unit (default_policy_bullets today) ++ strL "\n" := by
    intro hl
    simp only [compose_llm_prompt, hl]
    rfl
  have hnon : pickLoop [] findings ≠ [] →
      compose_llm_prompt today unit findings =
        build_request_text unit (default_policy_bullets today) ++
          (strL "\n\n" ++
            (strL "\n\nSQL snippets to apply (prefer those with DRAFT filters):\n\n" ++
              joinSep (strL "\n\n") ((pickLoop [] findings).map fenceAbap) ++
              strL "\n")) := by
    intro hl
    obtain ⟨c0, rest0, hl0⟩ := List.exists_cons_of_ne_nil hl
    simp only [compose_llm_prompt, hl0]
    rfl
  refine ⟨hempty, hnon, ?_⟩
  by_cases hl : pickLoop [] findings = []
  · rw [hempty hl, hl]
    unfold pyCount
    rw [countSkip_append_notick _ _ hreq]
    decide
  · rw [hnon hl]
    unfold pyCount
    rw [countSkip_append_notick _ _ hreq,
      countSkip_append_notick _ _ (by decide : '`' ∉ strL "\n\n"),
      List.append_assoc,
      countSkip_append_notick _ _
        (by decide : '`' ∉ strL "\n\nSQL snippets to apply (prefer those with DRAFT filters):\n\n")]
    exact countFence _ hc

set_option maxRecDepth 100000 in
theorem C8_witness :
    pyCount
      (compose_llm_prompt (strL "2026-10-12")
        { pgm_name := strL "ZSD_REPORT", inc_name := strL "ZSD_REPORT_F01",
          type := strL "FORM", name := strL "GET_DATA" }
        [{ suggestion := strL "SELECT vbeln FROM vbrk", snippet := strL "" }])
      (strL "```abap\n") =
    (pickLoop []
      [{ suggestion := strL "SELECT vbeln FROM vbrk", snippet := strL "" }]).length :=
  (C8_fenced_blocks (strL "2026-10-12")
    { pgm_name := strL "ZSD_REPORT", inc_name := strL "ZSD_REPORT_F01",
      type := strL "FORM", name := strL "GET_DATA" }
    [{ suggestion := strL "SELECT vbeln FROM vbrk", snippet := strL "" }]
    (by decide) (by decide)).2.2
